import Mathlib

/-!
Shallow embedding of `src/src/utils/data_validator.py`
(`PyBaseballDataValidator`), the data-validation and fallback engine of the
py-baseball-dashboard repository, together with theorems settling the
specification claims about it.

Modelling conventions:
* a pandas cell is `Option ℚ`; `none` models Python `None` / pandas NaN;
* a pandas Series is a `List (Option ℚ)` (row order = list order);
* a DataFrame carries its row count (the index length), its numeric columns
  and its string-valued columns (`events`, `player_name`) as association
  lists from column name to column data; per the spec's data model,
  batting-average-like columns are numeric, so they live among the numeric
  columns;
* `datetime.now()` is modelled by an explicit integer instant `now` threaded
  through the calls; `timedelta` values are integers in the same unit;
* the external `pyb.statcast_batter` call is a parameter `fetch` returning
  `Except Unit (Option (List (Option String)))`: `Except.error` models a
  raised exception, `Except.ok none` models a `None` result, and
  `Except.ok (some rows)` models a DataFrame of Statcast rows, of which the
  validator only reads the `events` column and the row count;
* the instance cache `self.cache` is a total function from keys to optional
  entries; tier-1 entries (`previous_avg`/`timestamp` dicts) and season
  entries (`value`/`timestamp` dicts) are the two constructors of
  `CacheEntry`.
-/

namespace DataValidator

/-- A single pandas cell: `none` is null (Python `None` / NaN). -/
abbrev Val := Option ℚ

/-- A fetch of season Statcast data for a player id: may raise
(`Except.error`), return `None` (`Except.ok none`), or return rows whose
`events` entries are listed (`Except.ok (some rows)`). -/
abbrev Fetch := String → Except Unit (Option (List (Option String)))

/-- `self.league_average = 0.244`, the 2024 MLB league batting average. -/
def leagueAverage : ℚ := 244 / 1000

/-- The invalid-value mask of `_apply_batting_average_fallback` applied to
one cell: null, zero, negative, or greater than 1.0. -/
def isInvalid (x : Val) : Bool :=
  match x with
  | none => true
  | some q => decide (q = 0) || decide (q < 0) || decide (q > 1)

/-- `series.loc[invalid_mask] = w`: replace every masked (invalid) cell of
the series with `w`. -/
def fillMask (w : ℚ) (s : List Val) : List Val :=
  s.map (fun x => if isInvalid x then some w else x)

/-- Does the character list `s` start with `sub`? (helper for the
substring test used in column discovery). -/
def startsWithCL : List Char → List Char → Bool
  | [], _ => true
  | _ :: _, [] => false
  | a :: as, b :: bs => a == b && startsWithCL as bs

/-- Does the character list contain `sub` as a contiguous run? (models
Python's `in` on strings). -/
def hasSubCL (sub : List Char) : List Char → Bool
  | [] => startsWithCL sub []
  | s :: rest => startsWithCL sub (s :: rest) || hasSubCL sub rest

/-- `'avg' in col.lower() or 'average' in col.lower()`: the column-name
discovery test of `validate_batting_averages`. -/
def avgLike (name : String) : Bool :=
  hasSubCL "avg".data (name.data.map Char.toLower)
    || hasSubCL "average".data (name.data.map Char.toLower)

/-- One entry of `self.cache`: either a tier-1 entry written by
`cache_player_average` (`previous_avg` + `timestamp`) or a season entry
written by `_get_player_season_average` (`value` + `timestamp`). -/
inductive CacheEntry where
  | prev (previous_avg : ℚ) (timestamp : ℤ)
  | season (value : ℚ) (timestamp : ℤ)
deriving DecidableEq

/-- The mutable state of a `PyBaseballDataValidator` instance: the cache and
the configured `cache_duration`. (`league_average` is the constant
`leagueAverage`.) -/
structure Validator where
  cache : String → Option CacheEntry
  cache_duration : ℤ

/-- Point update of the cache map. -/
def setCache (c : String → Option CacheEntry) (key : String) (e : CacheEntry) :
    String → Option CacheEntry :=
  fun k => if k = key then some e else c k

/-- `_is_cache_valid`: `datetime.now() - timestamp < self.cache_duration`. -/
def is_cache_valid (now timestamp dur : ℤ) : Bool :=
  decide (now - timestamp < dur)

/-- The hit events of the batting-average-from-events computation. -/
def hitEventsL : List String := ["single", "double", "triple", "home_run"]

/-- Count of rows whose `events` value is one of the hit events
(`data['events'].isin(hit_events).sum()`; a null event is not a hit). -/
def countHits (evs : List (Option String)) : ℕ :=
  (evs.filter (fun e =>
    match e with
    | some s => hitEventsL.contains s
    | none => false)).length

/-- `_calc_overall_avg_from_events`: league average on an empty table, else
hits divided by the row count `total`. -/
def _calc_overall_avg_from_events (total : ℕ) (evs : List (Option String)) : ℚ :=
  if total = 0 then leagueAverage
  else if 0 < total then (countHits evs : ℚ) / (total : ℚ)
  else leagueAverage

/-- `_calc_player_avg_from_events`: the same computation on one
`groupby('player_name')` group. -/
def _calc_player_avg_from_events (grp : List (Option String)) : ℚ :=
  if grp = [] then leagueAverage
  else if 0 < grp.length then (countHits grp : ℚ) / (grp.length : ℚ)
  else leagueAverage

/-- `_get_player_season_average`: season-cache lookup, then the external
fetch with its own try/except (a fetch failure yields `None`).  The
`Except.error` result models the `KeyError` raised when a tier-1 entry sits
under the season cache key and is still valid (`cached_entry['value']` is
evaluated outside the `try`); that exception is caught by the caller. -/
def _get_player_season_average (v : Validator) (now : ℤ) (pid : String)
    (fetch : Fetch) : Except Unit (Option ℚ × Validator) :=
  let cache_key := "season_avg_" ++ pid
  let fetched : Except Unit (Option ℚ × Validator) :=
    match fetch pid with
    | Except.error _ => Except.ok (none, v)
    | Except.ok none => Except.ok (none, v)
    | Except.ok (some rows) =>
      if rows = [] then Except.ok (none, v)
      else
        let season_avg := _calc_overall_avg_from_events rows.length rows
        Except.ok (some season_avg,
          { v with cache := setCache v.cache cache_key (CacheEntry.season season_avg now) })
  match v.cache cache_key with
  | some (CacheEntry.season value ts) =>
    if is_cache_valid now ts v.cache_duration then Except.ok (some value, v) else fetched
  | some (CacheEntry.prev _ ts) =>
    if is_cache_valid now ts v.cache_duration then Except.error () else fetched
  | none => fetched

/-- Tier 1, `_apply_previous_game_fallback`: if a player id is given
(truthy) and a live tier-1 cache entry exists for it, fill every masked
value with its `previous_avg`. -/
def _apply_previous_game_fallback (v : Validator) (now : ℤ) (s : List Val)
    (pid : Option String) : List Val :=
  match pid with
  | none => s
  | some p =>
    if p = "" then s
    else
      match v.cache p with
      | some (CacheEntry.prev pa ts) =>
        if is_cache_valid now ts v.cache_duration then fillMask pa s else s
      | _ => s

/-- Tier 2, `_apply_season_average_fallback`: if a player id is given
(truthy), try the season average; any exception is caught and the series is
returned unchanged; on success, re-evaluate the mask and fill if any value
is still invalid. -/
def _apply_season_average_fallback (v : Validator) (now : ℤ) (s : List Val)
    (pid : Option String) (fetch : Fetch) : List Val × Validator :=
  match pid with
  | none => (s, v)
  | some p =>
    if p = "" then (s, v)
    else
      match _get_player_season_average v now p fetch with
      | Except.error _ => (s, v)
      | Except.ok (none, v2) => (s, v2)
      | Except.ok (some sa, v2) =>
        if s.any isInvalid then (fillMask sa s, v2) else (s, v2)

/-- Tier 3, `_apply_final_fallback`: fill every still-invalid value with the
league average. -/
def _apply_final_fallback (s : List Val) : List Val :=
  if s.any isInvalid then fillMask leagueAverage s else s

/-- `_apply_batting_average_fallback`: return the series unchanged when no
value is invalid, otherwise run the three tiers in order. -/
def _apply_batting_average_fallback (v : Validator) (now : ℤ) (s : List Val)
    (pid : Option String) (fetch : Fetch) : List Val × Validator :=
  if s.any isInvalid = false then (s, v)
  else
    let s1 := _apply_previous_game_fallback v now s pid
    let p2 := _apply_season_average_fallback v now s1 pid fetch
    (_apply_final_fallback p2.1, p2.2)

/-- A pandas DataFrame: its index length (row count), its numeric columns
and its string-valued columns (`events`, `player_name`), as name-keyed
association lists. -/
structure DataFrame where
  nrows : ℕ
  cols : List (String × List Val)
  strCols : List (String × List (Option String))

/-- Column lookup among the numeric columns (`data[name]`). -/
def lookupCol (cols : List (String × List Val)) (name : String) : Option (List Val) :=
  (cols.find? (fun c => c.1 == name)).map Prod.snd

/-- Column lookup among the string columns. -/
def lookupStr (cols : List (String × List (Option String))) (name : String) :
    Option (List (Option String)) :=
  (cols.find? (fun c => c.1 == name)).map Prod.snd

/-- `data[name] = s` when the column already exists: replace its data. -/
def setColAll (cols : List (String × List Val)) (name : String) (s : List Val) :
    List (String × List Val) :=
  cols.map (fun c => if c.1 = name then (c.1, s) else c)

/-- `data[name] = s` in general: overwrite the column when present, append
it otherwise. -/
def setOrAdd (cols : List (String × List Val)) (name : String) (s : List Val) :
    List (String × List Val) :=
  if cols.any (fun c => c.1 = name) then setColAll cols name s
  else cols ++ [(name, s)]

/-- `_calculate_avg_from_events` on the main DataFrame: per-player average
when a `player_name` column exists (null names fall back to the league
average via `fillna`), else one overall average broadcast to every row. -/
def _calculate_avg_from_events (data : DataFrame) : List Val :=
  match lookupStr data.strCols "events" with
  | none => List.replicate data.nrows (some leagueAverage)
  | some evs =>
    match lookupStr data.strCols "player_name" with
    | some names =>
      names.map (fun n =>
        match n with
        | none => some leagueAverage
        | some nm =>
          some (_calc_player_avg_from_events
            (((List.zip names evs).filter (fun pr => pr.1 == some nm)).map Prod.snd)))
    | none => List.replicate data.nrows (some (_calc_overall_avg_from_events data.nrows evs))

/-- `_calculate_batting_average`: derive a `calculated_avg` column from
`hits`/`at_bats` (zero at-bats replaced by null before the division, nulls
filled with the league average afterwards), else from Statcast events, else
fill it with the league average. -/
def _calculate_batting_average (data : DataFrame) : DataFrame :=
  match lookupCol data.cols "hits", lookupCol data.cols "at_bats" with
  | some hits, some at_bats =>
    let at_bats_nonzero := at_bats.map (fun x => if x = some 0 then none else x)
    let rawAvg := List.zipWith (fun h ab =>
        match h, ab with
        | some hv, some abv => some (hv / abv)
        | _, _ => (none : Val)) hits at_bats_nonzero
    let filled := rawAvg.map (fun x => some (x.getD leagueAverage))
    { data with cols := setOrAdd data.cols "calculated_avg" filled }
  | _, _ =>
    match lookupStr data.strCols "events" with
    | some _ =>
      { data with cols := setOrAdd data.cols "calculated_avg" (_calculate_avg_from_events data) }
    | none =>
      { data with cols :=
          setOrAdd data.cols "calculated_avg" (List.replicate data.nrows (some leagueAverage)) }

/-- The `for col in avg_columns` loop of `validate_batting_averages`: apply
the fallback cascade to each named column that exists, threading the
validator state. -/
def applyToCols (now : ℤ) (pid : Option String) (fetch : Fetch) :
    Validator → DataFrame → List String → DataFrame × Validator
  | v, d, [] => (d, v)
  | v, d, name :: rest =>
    match lookupCol d.cols name with
    | some series =>
      let p := _apply_batting_average_fallback v now series pid fetch
      applyToCols now pid fetch p.2 { d with cols := setColAll d.cols name p.1 } rest
    | none => applyToCols now pid fetch v d rest

/-- `validate_batting_averages`: empty input gives an empty DataFrame;
otherwise discover the average-like columns (deriving `calculated_avg` when
none exist) and run the cascade on each. -/
def validate_batting_averages (v : Validator) (now : ℤ) (data : DataFrame)
    (pid : Option String) (fetch : Fetch) : DataFrame × Validator :=
  if data.nrows = 0 ∨ (data.cols = [] ∧ data.strCols = []) then (⟨0, [], []⟩, v)
  else
    let avg_columns := (data.cols.map Prod.fst).filter (fun n => avgLike n)
    if avg_columns = [] then
      applyToCols now pid fetch v (_calculate_batting_average data) ["calculated_avg"]
    else
      applyToCols now pid fetch v data avg_columns

/-- A player-record dictionary restricted to the fields the validator reads
or writes; `none` is an absent key or an explicit Python `None` value (the
code treats the two identically). -/
structure PlayerRecord where
  name : Option String
  player_id : Option String
  position : Option String
  team : Option String
  batting_avg : Option ℚ
  data_quality : Option String
deriving DecidableEq

/-- `_get_default_player_data`. -/
def _get_default_player_data : PlayerRecord :=
  ⟨some "Unknown Player", none, some "Unknown", some "Free Agent",
    some leagueAverage, some "INSUFFICIENT_DATA"⟩

/-- The quality score of `_assess_data_quality`: one point per condition;
`player_data.get(f)` is truthy exactly when the field is non-null and, for
strings, non-empty, and for `batting_avg`, nonzero. -/
def qualityScore (p : PlayerRecord) : ℕ :=
  (if p.name ≠ none ∧ p.name ≠ some "" ∧ p.name ≠ some "Unknown Player" then 1 else 0)
  + (if p.player_id ≠ none ∧ p.player_id ≠ some "" then 1 else 0)
  + (if p.position ≠ none ∧ p.position ≠ some "" ∧ p.position ≠ some "Unknown" then 1 else 0)
  + (if p.team ≠ none ∧ p.team ≠ some "" ∧ p.team ≠ some "Free Agent" then 1 else 0)
  + (if p.batting_avg ≠ none ∧ p.batting_avg ≠ some 0 ∧ p.batting_avg ≠ some leagueAverage
      then 1 else 0)

/-- `_assess_data_quality`: the score over 5 mapped through the ratio
thresholds 0.8 / 0.6 / 0.4. -/
def _assess_data_quality (p : PlayerRecord) : String :=
  let quality_percentage : ℚ := (qualityScore p : ℚ) / 5
  if quality_percentage ≥ 8 / 10 then "HIGH"
  else if quality_percentage ≥ 6 / 10 then "MEDIUM"
  else if quality_percentage ≥ 4 / 10 then "LOW"
  else "INSUFFICIENT_DATA"

/-- `validate_player_data`: falsy input gives the default record; otherwise
substitute the defaults for missing/null fields, force `batting_avg` into
`[0,1]` (replacing null, negative or >1 values — not zero — with the league
average), and attach the data-quality bucket. -/
def validate_player_data (pd : Option PlayerRecord) : PlayerRecord :=
  match pd with
  | none => _get_default_player_data
  | some p =>
    let avg0 := p.batting_avg.getD leagueAverage
    let p2 : PlayerRecord :=
      { name := some (p.name.getD "Unknown Player")
        player_id := p.player_id
        position := some (p.position.getD "Unknown")
        team := some (p.team.getD "Free Agent")
        batting_avg := some (if avg0 < 0 ∨ avg0 > 1 then leagueAverage else avg0)
        data_quality := p.data_quality }
    { p2 with data_quality := some (_assess_data_quality p2) }

/-- `cache_player_average`: store a tier-1 entry only for a truthy player id
and a non-null value in `[0, 1]`. -/
def cache_player_average (v : Validator) (now : ℤ) (pid : String)
    (avg : Option ℚ) : Validator :=
  match avg with
  | none => v
  | some a =>
    if pid ≠ "" ∧ 0 ≤ a ∧ a ≤ 1 then
      { v with cache := setCache v.cache pid (CacheEntry.prev a now) }
    else v

/-- The data-quality score exactly as claim C3 words it ("present" read as
"non-null"): name present and not 'Unknown Player'; player_id present;
position present and not 'Unknown'; team present and not 'Free Agent';
batting_avg present and not exactly the league average. -/
def claimQualityScoreOriginal (p : PlayerRecord) : ℕ :=
  (if p.name ≠ none ∧ p.name ≠ some "Unknown Player" then 1 else 0)
  + (if p.player_id ≠ none then 1 else 0)
  + (if p.position ≠ none ∧ p.position ≠ some "Unknown" then 1 else 0)
  + (if p.team ≠ none ∧ p.team ≠ some "Free Agent" then 1 else 0)
  + (if p.batting_avg ≠ none ∧ p.batting_avg ≠ some leagueAverage then 1 else 0)

/-- Claim C3's bucket map on a score out of 5: 4-5 HIGH, 3 MEDIUM, 2 LOW,
0-1 INSUFFICIENT_DATA, applied to the claim's literal score. -/
def claimQualityOriginal (p : PlayerRecord) : String :=
  if 4 ≤ claimQualityScoreOriginal p then "HIGH"
  else if claimQualityScoreOriginal p = 3 then "MEDIUM"
  else if claimQualityScoreOriginal p = 2 then "LOW"
  else "INSUFFICIENT_DATA"

/-- Claim C3's bucket map applied to the amended score, in which "present"
is a truthy field (non-null, non-empty string, nonzero average). -/
def claimQualityAmended (p : PlayerRecord) : String :=
  if 4 ≤ qualityScore p then "HIGH"
  else if qualityScore p = 3 then "MEDIUM"
  else if qualityScore p = 2 then "LOW"
  else "INSUFFICIENT_DATA"

/-- A fresh validator: empty cache, default 24-hour cache duration. -/
def emptyValidator : Validator := ⟨fun _ => none, 24⟩

/-- A fetch that always returns `None` (no season data available). -/
def fetchNone : Fetch := fun _ => Except.ok none

/-- A fetch that always raises (network/service failure). -/
def fetchFail : Fetch := fun _ => Except.error ()

/-! ### Helper lemmas -/

/-- A cell that fails the invalid mask is a value in `(0, 1]`. -/
theorem valid_of_isInvalid_false {x : Val} (h : isInvalid x = false) :
    ∃ q, x = some q ∧ 0 ≤ q ∧ q ≤ 1 := by
  cases x with
  | none => simp [isInvalid] at h
  | some q =>
    refine ⟨q, rfl, ?_, ?_⟩ <;>
      simp only [isInvalid, Bool.or_eq_false_iff, decide_eq_false_iff_not] at h <;>
      [exact le_of_not_lt h.1.2; exact le_of_not_lt h.2]

/-- The league average is itself a valid cell. -/
theorem isInvalid_leagueAverage : isInvalid (some leagueAverage) = false := by
  simp only [isInvalid, Bool.or_eq_false_iff, decide_eq_false_iff_not, leagueAverage]
  norm_num

/-- Every cell of a mask-fill with a valid fill value is valid. -/
theorem fillMask_valid {w : ℚ} (hw : isInvalid (some w) = false) (s : List Val) :
    ∀ x ∈ fillMask w s, isInvalid x = false := by
  intro x hx
  simp only [fillMask, List.mem_map] at hx
  obtain ⟨y, -, rfl⟩ := hx
  by_cases hy : isInvalid y = true
  · simp [hy, hw]
  · simp only [Bool.not_eq_true] at hy
    simp [hy]

/-- Filling does nothing to a series with no invalid value. -/
theorem fillMask_of_no_invalid {w : ℚ} {s : List Val} (h : s.any isInvalid = false) :
    fillMask w s = s := by
  unfold fillMask
  rw [List.map_congr_left, List.map_id']
  intro x hx
  have hx2 : ¬ isInvalid x = true := by simpa using List.any_eq_false.mp h x hx
  simp only [Bool.not_eq_true] at hx2
  simp [hx2]

/-- Tier 3 output as a single mask-fill with the league average. -/
theorem final_fallback_eq_fillMask (s : List Val) :
    _apply_final_fallback s = fillMask leagueAverage s := by
  unfold _apply_final_fallback
  by_cases h : s.any isInvalid = true
  · simp [h]
  · simp only [Bool.not_eq_true] at h
    simp [h, fillMask_of_no_invalid h]

/-- Every cell of the tier-3 output is valid. -/
theorem final_fallback_valid (s : List Val) :
    ∀ x ∈ _apply_final_fallback s, isInvalid x = false := by
  rw [final_fallback_eq_fillMask]
  exact fillMask_valid isInvalid_leagueAverage s

/-- Every cell of the full cascade's output series is valid. -/
theorem fallback_fst_valid (v : Validator) (now : ℤ) (s : List Val)
    (pid : Option String) (fetch : Fetch) :
    ∀ x ∈ (_apply_batting_average_fallback v now s pid fetch).1, isInvalid x = false := by
  unfold _apply_batting_average_fallback
  by_cases h : s.any isInvalid = false
  · rw [if_pos h]
    intro x hx
    simpa using List.any_eq_false.mp h x hx
  · rw [if_neg h]
    exact final_fallback_valid _

/-- The ratio thresholds 0.8/0.6/0.4 over a score out of 5 coincide with
the count buckets 4-5 / 3 / 2 / 0-1. -/
theorem bucket_ratio_eq_count (n : ℕ) (h : n ≤ 5) :
    (if ((n : ℚ) / 5 ≥ 8 / 10) then "HIGH"
     else if ((n : ℚ) / 5 ≥ 6 / 10) then "MEDIUM"
     else if ((n : ℚ) / 5 ≥ 4 / 10) then "LOW"
     else "INSUFFICIENT_DATA")
    = (if 4 ≤ n then "HIGH"
       else if n = 3 then "MEDIUM"
       else if n = 2 then "LOW"
       else "INSUFFICIENT_DATA") := by
  interval_cases n <;> norm_num

/-- The quality score counts at most its five conditions. -/
theorem qualityScore_le (p : PlayerRecord) : qualityScore p ≤ 5 := by
  unfold qualityScore
  split_ifs <;> omega

/-- The code's ratio-threshold assessment equals the count-bucket map on
the truthiness score. -/
theorem assess_eq_claimAmended (p : PlayerRecord) :
    _assess_data_quality p = claimQualityAmended p := by
  have h := qualityScore_le p
  simp only [_assess_data_quality, claimQualityAmended]
  exact bucket_ratio_eq_count (qualityScore p) h

/-- The amended quality bucket ignores the attached quality flag. -/
theorem claimQualityAmended_update (p : PlayerRecord) (z : Option String) :
    claimQualityAmended { p with data_quality := z } = claimQualityAmended p := rfl

/-- C3 (counterexample): on the input record with an empty-string name, a
player id, a position and a team, `validate_player_data` attaches MEDIUM,
while the claim's score — reading "present" as non-null — counts 4 of 5
conditions and buckets to HIGH: the code requires truthiness (an empty
string scores nothing), not mere presence. -/
theorem c3_counterexample :
    (validate_player_data
        (some ⟨some "", some "p1", some "C", some "T", none, none⟩)).data_quality
      = some "MEDIUM"
    ∧ claimQualityOriginal
        (validate_player_data
          (some ⟨some "", some "p1", some "C", some "T", none, none⟩))
      = "HIGH" := by
  constructor
  · simp +decide only [validate_player_data, _assess_data_quality, qualityScore,
      Option.getD_some, Option.getD_none]
    norm_num [leagueAverage]
  · simp +decide only [validate_player_data, claimQualityOriginal, claimQualityScoreOriginal,
      Option.getD_some, Option.getD_none]
    norm_num [leagueAverage]

/-- C3 (amended): for every player record, the data_quality attached by
`validate_player_data` equals the count bucket (4-5 HIGH, 3 MEDIUM, 2 LOW,
0-1 INSUFFICIENT_DATA) of the score counting the five truthy-field
conditions: name truthy and not 'Unknown Player'; player_id truthy;
position truthy and not 'Unknown'; team truthy and not 'Free Agent';
batting_avg truthy (non-null and nonzero) and not exactly 0.244. -/
theorem c3_data_quality_bucket (pd : Option PlayerRecord) :
    (validate_player_data pd).data_quality
      = some (claimQualityAmended (validate_player_data pd)) := by
  cases pd with
  | none =>
    norm_num [validate_player_data, _get_default_player_data, claimQualityAmended,
      qualityScore, leagueAverage]
  | some p =>
    exact congrArg some (assess_eq_claimAmended _)

/-- C5: `validate_player_data` never fails: for every input record, each of
the five required fields comes back with its listed default substituted for
a missing/null value (name 'Unknown Player', player_id null, position
'Unknown', team 'Free Agent', batting_avg 0.244) and kept otherwise, with
`batting_avg` always a non-null value in `[0,1]`; falsy input (Python
`None` or `{}`) yields exactly the canonical default record, whose data
quality is INSUFFICIENT_DATA. -/
theorem c5_defaults_and_shape :
    validate_player_data none = _get_default_player_data
    ∧ _get_default_player_data
        = ⟨some "Unknown Player", none, some "Unknown", some "Free Agent",
            some leagueAverage, some "INSUFFICIENT_DATA"⟩
    ∧ ∀ p : PlayerRecord,
        (validate_player_data (some p)).name = some (p.name.getD "Unknown Player")
        ∧ (validate_player_data (some p)).player_id = p.player_id
        ∧ (validate_player_data (some p)).position = some (p.position.getD "Unknown")
        ∧ (validate_player_data (some p)).team = some (p.team.getD "Free Agent")
        ∧ (p.batting_avg = none →
            (validate_player_data (some p)).batting_avg = some leagueAverage)
        ∧ ∃ q, (validate_player_data (some p)).batting_avg = some q ∧ 0 ≤ q ∧ q ≤ 1 := by
  refine ⟨rfl, rfl, fun p => ⟨rfl, rfl, rfl, rfl, ?_, ?_⟩⟩
  · intro h
    simp only [validate_player_data, h, Option.getD_none, ite_self]
  · by_cases hc : p.batting_avg.getD leagueAverage < 0 ∨ p.batting_avg.getD leagueAverage > 1
    · refine ⟨leagueAverage, ?_, by norm_num [leagueAverage], by norm_num [leagueAverage]⟩
      simp only [validate_player_data]
      rw [if_pos hc]
    · have hc2 := hc
      push_neg at hc2
      refine ⟨p.batting_avg.getD leagueAverage, ?_, hc2.1, hc2.2⟩
      simp only [validate_player_data]
      rw [if_neg hc]

/-- C5 witness: a record with only a player id present gets the league
average substituted for its missing batting_avg. -/
theorem c5_defaults_and_shape_witness :
    (⟨none, some "p9", none, none, none, none⟩ : PlayerRecord).batting_avg = none
    ∧ (validate_player_data
        (some ⟨none, some "p9", none, none, none, none⟩)).batting_avg
      = some leagueAverage :=
  ⟨rfl,
    (c5_defaults_and_shape.2.2 ⟨none, some "p9", none, none, none, none⟩).2.2.2.2.1 rfl⟩

/-- C10: a `batting_avg` of exactly 0 is kept by `validate_player_data`
(only null, negative or >1 averages are replaced), while the table
cascade's mask classifies exactly-0 as invalid. -/
theorem c10_zero_kept (p : PlayerRecord) (h : p.batting_avg = some 0) :
    (validate_player_data (some p)).batting_avg = some 0
    ∧ isInvalid (some 0) = true := by
  refine ⟨?_, rfl⟩
  simp only [validate_player_data, h, Option.getD_some]
  norm_num

/-- C10 witness: a concrete record with a zero average keeps it. -/
theorem c10_zero_kept_witness :
    (⟨some "A", none, none, none, some 0, none⟩ : PlayerRecord).batting_avg = some 0
    ∧ ((validate_player_data
          (some ⟨some "A", none, none, none, some 0, none⟩)).batting_avg = some 0
        ∧ isInvalid (some 0) = true) :=
  ⟨rfl, c10_zero_kept _ rfl⟩

/-- The season cache key never collides with the player-id key. -/
theorem season_key_ne (p : String) : ¬ ("season_avg_" ++ p = p) := by
  intro h
  have h2 := congrArg String.length h
  rw [String.length_append] at h2
  have h3 : "season_avg_".length = 11 := rfl
  omega

/-- With an invalid cell present, the cascade is tier 3 after tier 2 after
tier 1. -/
theorem fallback_fst_eq (v : Validator) (now : ℤ) (s : List Val)
    (pid : Option String) (fetch : Fetch) (h : s.any isInvalid = true) :
    (_apply_batting_average_fallback v now s pid fetch).1
      = _apply_final_fallback
          (_apply_season_average_fallback v now
            (_apply_previous_game_fallback v now s pid) pid fetch).1 := by
  unfold _apply_batting_average_fallback
  rw [if_neg (by simp [h])]

/-- With no invalid cell, the cascade returns the series unchanged. -/
theorem fallback_fst_id (v : Validator) (now : ℤ) (s : List Val)
    (pid : Option String) (fetch : Fetch) (h : s.any isInvalid = false) :
    (_apply_batting_average_fallback v now s pid fetch).1 = s := by
  unfold _apply_batting_average_fallback
  rw [if_pos h]

/-- Tier 1 is a no-op when the player has no cache entry (or no id). -/
theorem tier1_noop_no_entry (v : Validator) (now : ℤ) (s : List Val)
    (pid : Option String) (h : ∀ p, pid = some p → v.cache p = none) :
    _apply_previous_game_fallback v now s pid = s := by
  cases pid with
  | none => rfl
  | some p =>
    by_cases hp : p = ""
    · simp [_apply_previous_game_fallback, hp]
    · simp [_apply_previous_game_fallback, hp, h p rfl]

/-- Tier 1 is a no-op when the player's cache entry is stale. -/
theorem tier1_noop_stale (v : Validator) (now : ℤ) (s : List Val) (p : String)
    (pa : ℚ) (ts : ℤ) (hc : v.cache p = some (CacheEntry.prev pa ts))
    (hst : v.cache_duration ≤ now - ts) :
    _apply_previous_game_fallback v now s (some p) = s := by
  by_cases hp : p = ""
  · simp [_apply_previous_game_fallback, hp]
  · have hv : is_cache_valid now ts v.cache_duration = false := by
      simp [is_cache_valid, not_lt.mpr hst]
    simp [_apply_previous_game_fallback, hp, hc, hv]

/-- The season-average lookup yields no value when the season cache is
empty and the fetch raises or returns `None`. -/
theorem get_season_no_data (v : Validator) (now : ℤ) (p : String) (fetch : Fetch)
    (hc : v.cache ("season_avg_" ++ p) = none)
    (hf : fetch p = Except.error () ∨ fetch p = Except.ok none) :
    _get_player_season_average v now p fetch = Except.ok (none, v) := by
  rcases hf with hf | hf <;> simp [_get_player_season_average, hc, hf]

/-- Tier 2 is a no-op on the series and on the validator when the
season-average lookup yields no value. -/
theorem season_noop_of_get_none (v : Validator) (now : ℤ) (s : List Val)
    (pid : Option String) (fetch : Fetch)
    (h : ∀ p, pid = some p → p ≠ "" →
      _get_player_season_average v now p fetch = Except.ok (none, v)) :
    _apply_season_average_fallback v now s pid fetch = (s, v) := by
  cases pid with
  | none => rfl
  | some p =>
    by_cases hp : p = ""
    · simp [_apply_season_average_fallback, hp]
    · simp [_apply_season_average_fallback, hp, h p rfl hp]

/-- When tiers 1 and 2 are no-ops, the cascade is exactly a league-average
mask fill. -/
theorem fallback_league_of_noop (v : Validator) (now : ℤ) (s : List Val)
    (pid : Option String) (fetch : Fetch)
    (h1 : _apply_previous_game_fallback v now s pid = s)
    (h2 : (_apply_season_average_fallback v now s pid fetch).1 = s) :
    (_apply_batting_average_fallback v now s pid fetch).1
      = fillMask leagueAverage s := by
  by_cases h : s.any isInvalid = true
  · rw [fallback_fst_eq v now s pid fetch h, h1, h2, final_fallback_eq_fillMask]
  · have h0 : s.any isInvalid = false := by simpa using h
    rw [fallback_fst_id v now s pid fetch h0]
    exact (fillMask_of_no_invalid h0).symm

/-- With an empty cache and a fetch yielding no season data, the whole
cascade is a league-average mask fill. -/
theorem fallback_no_sources (v : Validator) (now : ℤ) (s : List Val)
    (pid : Option String) (fetch : Fetch)
    (hcache : ∀ k, v.cache k = none)
    (hf : ∀ p, fetch p = Except.error () ∨ fetch p = Except.ok none) :
    (_apply_batting_average_fallback v now s pid fetch).1
      = fillMask leagueAverage s := by
  refine fallback_league_of_noop v now s pid fetch
    (tier1_noop_no_entry v now s pid (fun p _ => hcache p)) ?_
  rw [season_noop_of_get_none v now s pid fetch
    (fun p _ _ => get_season_no_data v now p fetch (hcache _) (hf p))]

/-- Tier 1 is, uniformly in the series, either the identity or a mask fill
with one fixed cached value. -/
theorem tier1_shape (v : Validator) (now : ℤ) (pid : Option String) :
    (∀ s, _apply_previous_game_fallback v now s pid = s)
    ∨ ∃ w, ∀ s, _apply_previous_game_fallback v now s pid = fillMask w s := by
  cases pid with
  | none => exact Or.inl (fun s => rfl)
  | some p =>
    by_cases hp : p = ""
    · exact Or.inl (fun s => by simp [_apply_previous_game_fallback, hp])
    · cases hc : v.cache p with
      | none => exact Or.inl (fun s => by simp [_apply_previous_game_fallback, hp, hc])
      | some e =>
        cases e with
        | prev pa ts =>
          by_cases hv : is_cache_valid now ts v.cache_duration = true
          · exact Or.inr ⟨pa, fun s => by simp [_apply_previous_game_fallback, hp, hc, hv]⟩
          · have hv2 : is_cache_valid now ts v.cache_duration = false := by simpa using hv
            exact Or.inl (fun s => by simp [_apply_previous_game_fallback, hp, hc, hv2])
        | season val ts =>
          exact Or.inl (fun s => by simp [_apply_previous_game_fallback, hp, hc])

/-- Tier 2 is, uniformly in the series, either a series no-op or a
conditional mask fill with one fixed season average. -/
theorem tier2_shape (v : Validator) (now : ℤ) (pid : Option String) (fetch : Fetch) :
    (∀ s, (_apply_season_average_fallback v now s pid fetch).1 = s)
    ∨ ∃ sa, ∀ s, (_apply_season_average_fallback v now s pid fetch).1
        = if s.any isInvalid then fillMask sa s else s := by
  cases pid with
  | none => exact Or.inl (fun s => rfl)
  | some p =>
    by_cases hp : p = ""
    · exact Or.inl (fun s => by simp [_apply_season_average_fallback, hp])
    · cases hg : _get_player_season_average v now p fetch with
      | error e => exact Or.inl (fun s => by simp [_apply_season_average_fallback, hp, hg])
      | ok r =>
        obtain ⟨sav, v2⟩ := r
        cases sav with
        | none => exact Or.inl (fun s => by simp [_apply_season_average_fallback, hp, hg])
        | some sa =>
          refine Or.inr ⟨sa, fun s => ?_⟩
          by_cases hs : s.any isInvalid = true
          · simp [_apply_season_average_fallback, hp, hg, hs]
          · have hs2 : s.any isInvalid = false := by simpa using hs
            simp [_apply_season_average_fallback, hp, hg, hs2]

/-- A mask fill of a singleton invalid cell is the fill value. -/
theorem fillMask_single {x : Val} (w : ℚ) (hx : isInvalid x = true) :
    fillMask w [x] = [some w] := by
  simp [fillMask, hx]

/-- Tier 3 on a singleton invalid cell gives the league average. -/
theorem final_fallback_single {x : Val} (hx : isInvalid x = true) :
    _apply_final_fallback [x] = [some leagueAverage] := by
  unfold _apply_final_fallback
  rw [if_pos (by simp [hx])]
  exact fillMask_single _ hx

/-- C4: nulls, zeros, negatives and >1 values are all classified invalid;
any two invalid shapes produce the same cascade output under the same
cache state; and with no cache and no season data every invalid value
resolves to exactly the league average 0.244. -/
theorem c4_invalid_shapes :
    (isInvalid none = true ∧ isInvalid (some 0) = true
      ∧ (∀ q : ℚ, q < 0 → isInvalid (some q) = true)
      ∧ (∀ q : ℚ, 1 < q → isInvalid (some q) = true))
    ∧ (∀ (v : Validator) (now : ℤ) (pid : Option String) (fetch : Fetch) (a b : Val),
        isInvalid a = true → isInvalid b = true →
        (_apply_batting_average_fallback v now [a] pid fetch).1
          = (_apply_batting_average_fallback v now [b] pid fetch).1)
    ∧ (∀ (v : Validator) (now : ℤ) (pid : Option String) (fetch : Fetch) (s : List Val),
        (∀ k, v.cache k = none) → (∀ p, fetch p = Except.ok none) →
        (_apply_batting_average_fallback v now s pid fetch).1
          = fillMask leagueAverage s) := by
  refine ⟨⟨rfl, rfl, fun q hq => by simp [isInvalid, hq], fun q hq => by simp [isInvalid, hq]⟩,
    ?_, ?_⟩
  · intro v now pid fetch a b ha hb
    have hsa : [a].any isInvalid = true := by simp [ha]
    have hsb : [b].any isInvalid = true := by simp [hb]
    rw [fallback_fst_eq v now [a] pid fetch hsa, fallback_fst_eq v now [b] pid fetch hsb]
    rcases tier1_shape v now pid with h1 | ⟨w, h1⟩
    · rw [h1, h1]
      rcases tier2_shape v now pid fetch with h2 | ⟨sa, h2⟩
      · rw [h2, h2, final_fallback_single ha, final_fallback_single hb]
      · rw [h2, h2, if_pos hsa, if_pos hsb, fillMask_single sa ha, fillMask_single sa hb]
    · rw [h1, h1, fillMask_single w ha, fillMask_single w hb]
  · intro v now pid fetch s hcache hfetch
    exact fallback_no_sources v now s pid fetch hcache (fun p => Or.inr (hfetch p))

/-- C4 witness: a null and an out-of-range value get the same treatment on
a fresh validator, here both resolving through tier 3. -/
theorem c4_invalid_shapes_witness :
    isInvalid (none : Val) = true ∧ isInvalid (some (2 : ℚ)) = true
    ∧ (_apply_batting_average_fallback emptyValidator 0 [none] none fetchNone).1
        = (_apply_batting_average_fallback emptyValidator 0 [some 2] none fetchNone).1 :=
  ⟨rfl, rfl,
    c4_invalid_shapes.2.1 emptyValidator 0 none fetchNone none (some 2) rfl rfl⟩

/-- C7: a cache entry is live exactly when `now - timestamp` is below the
configured duration; a stale tier-1 entry is skipped, so with no season
data every invalid value resolves to the league average, not the cached
value. -/
theorem c7_stale_cache_skipped :
    (∀ now ts dur : ℤ, is_cache_valid now ts dur = true ↔ now - ts < dur)
    ∧ (∀ (v : Validator) (now : ℤ) (p : String) (pa : ℚ) (ts : ℤ)
        (s : List Val) (fetch : Fetch),
        v.cache p = some (CacheEntry.prev pa ts) →
        v.cache_duration ≤ now - ts →
        v.cache ("season_avg_" ++ p) = none →
        fetch p = Except.ok none →
        (_apply_batting_average_fallback v now s (some p) fetch).1
          = fillMask leagueAverage s) := by
  constructor
  · intro now ts dur
    simp [is_cache_valid]
  · intro v now p pa ts s fetch hc hst hsc hf
    refine fallback_league_of_noop v now s (some p) fetch
      (tier1_noop_stale v now s p pa ts hc hst) ?_
    rw [season_noop_of_get_none v now s (some p) fetch ?_]
    intro p2 hp2 _
    obtain rfl : p = p2 := by simpa using hp2
    exact get_season_no_data v now p fetch hsc (Or.inr hf)

/-- C7 witness: an entry aged 30 time units against a duration of 24 is
skipped and a null cell resolves to the league average. -/
theorem c7_stale_cache_skipped_witness :
    (⟨fun k => if k = "p1" then some (CacheEntry.prev 1 0) else none, 24⟩ :
        Validator).cache "p1" = some (CacheEntry.prev 1 0)
    ∧ (24 : ℤ) ≤ 30 - 0
    ∧ (_apply_batting_average_fallback
        ⟨fun k => if k = "p1" then some (CacheEntry.prev 1 0) else none, 24⟩ 30
        [none] (some "p1") fetchNone).1 = fillMask leagueAverage [none] :=
  ⟨rfl, by decide,
    c7_stale_cache_skipped.2
      ⟨fun k => if k = "p1" then some (CacheEntry.prev 1 0) else none, 24⟩ 30
      "p1" 1 0 [none] fetchNone rfl (by decide) rfl rfl⟩

/-- A raising fetch makes the season lookup behave exactly like a fetch
returning no data. -/
theorem get_eq_fetchNone (v : Validator) (now : ℤ) (p : String) (fetch : Fetch)
    (hf : fetch p = Except.error ()) :
    _get_player_season_average v now p fetch
      = _get_player_season_average v now p fetchNone := by
  unfold _get_player_season_average
  rw [hf]
  rfl

/-- A raising fetch makes tier 2 behave exactly like a fetch returning no
data. -/
theorem season_eq_fetchNone (v : Validator) (now : ℤ) (s : List Val)
    (pid : Option String) (fetch : Fetch) (hf : ∀ q, fetch q = Except.error ()) :
    _apply_season_average_fallback v now s pid fetch
      = _apply_season_average_fallback v now s pid fetchNone := by
  cases pid with
  | none => rfl
  | some p =>
    by_cases hp : p = ""
    · simp [_apply_season_average_fallback, hp]
    · simp only [_apply_season_average_fallback, if_neg hp]
      rw [get_eq_fetchNone v now p fetch (hf p)]

/-- A raising fetch makes the whole cascade behave exactly like a fetch
returning no data. -/
theorem fallback_eq_fetchNone (v : Validator) (now : ℤ) (s : List Val)
    (pid : Option String) (fetch : Fetch) (hf : ∀ q, fetch q = Except.error ()) :
    _apply_batting_average_fallback v now s pid fetch
      = _apply_batting_average_fallback v now s pid fetchNone := by
  unfold _apply_batting_average_fallback
  by_cases h : s.any isInvalid = false
  · rw [if_pos h, if_pos h]
  · rw [if_neg h, if_neg h]
    show (_apply_final_fallback
          (_apply_season_average_fallback v now
            (_apply_previous_game_fallback v now s pid) pid fetch).1,
        (_apply_season_average_fallback v now
          (_apply_previous_game_fallback v now s pid) pid fetch).2)
      = (_apply_final_fallback
          (_apply_season_average_fallback v now
            (_apply_previous_game_fallback v now s pid) pid fetchNone).1,
        (_apply_season_average_fallback v now
          (_apply_previous_game_fallback v now s pid) pid fetchNone).2)
    rw [season_eq_fetchNone v now (_apply_previous_game_fallback v now s pid) pid fetch hf]

/-- A raising fetch makes the per-column loop behave exactly like a fetch
returning no data. -/
theorem applyToCols_eq_fetchNone (now : ℤ) (pid : Option String) (fetch : Fetch)
    (hf : ∀ q, fetch q = Except.error ()) :
    ∀ (names : List String) (v : Validator) (d : DataFrame),
      applyToCols now pid fetch v d names = applyToCols now pid fetchNone v d names := by
  intro names
  induction names with
  | nil => intro v d; rfl
  | cons n rest ih =>
    intro v d
    cases hl : lookupCol d.cols n with
    | none =>
      simp only [applyToCols, hl]
      exact ih v d
    | some series =>
      simp only [applyToCols, hl]
      rw [fallback_eq_fetchNone v now series pid fetch hf]
      exact ih _ _

/-- C8: a raising season fetch is caught: `validate_batting_averages`
behaves exactly as if no season data were available, and with an empty
cache every invalid value resolves to the league average through tier 3. -/
theorem c8_fetch_failure_contained :
    ∀ (fetch : Fetch), (∀ q, fetch q = Except.error ()) →
      (∀ (v : Validator) (now : ℤ) (data : DataFrame) (pid : Option String),
        validate_batting_averages v now data pid fetch
          = validate_batting_averages v now data pid fetchNone)
      ∧ (∀ (v : Validator) (now : ℤ) (s : List Val) (pid : Option String),
          (∀ k, v.cache k = none) →
          (_apply_batting_average_fallback v now s pid fetch).1
            = fillMask leagueAverage s) := by
  intro fetch hf
  constructor
  · intro v now data pid
    simp only [validate_batting_averages]
    by_cases he : data.nrows = 0 ∨ (data.cols = [] ∧ data.strCols = [])
    · rw [if_pos he, if_pos he]
    · rw [if_neg he, if_neg he]
      by_cases ha : (data.cols.map Prod.fst).filter (fun n => avgLike n) = []
      · rw [if_pos ha, if_pos ha]
        exact applyToCols_eq_fetchNone now pid fetch hf _ _ _
      · rw [if_neg ha, if_neg ha]
        exact applyToCols_eq_fetchNone now pid fetch hf _ _ _
  · intro v now s pid hcache
    exact fallback_no_sources v now s pid fetch hcache (fun p => Or.inl (hf p))

/-- C8 witness: the always-raising fetch is contained on a concrete table
and resolves a null cell to the league average. -/
theorem c8_fetch_failure_contained_witness :
    fetchFail "p1" = Except.error ()
    ∧ (validate_batting_averages emptyValidator 0 ⟨1, [("avg", [some 2])], []⟩
          (some "p1") fetchFail
        = validate_batting_averages emptyValidator 0 ⟨1, [("avg", [some 2])], []⟩
          (some "p1") fetchNone)
    ∧ (_apply_batting_average_fallback emptyValidator 0 [none] (some "p1") fetchFail).1
        = fillMask leagueAverage [none] :=
  ⟨rfl,
    (c8_fetch_failure_contained fetchFail (fun _ => rfl)).1 emptyValidator 0
      ⟨1, [("avg", [some 2])], []⟩ (some "p1"),
    (c8_fetch_failure_contained fetchFail (fun _ => rfl)).2 emptyValidator 0
      [none] (some "p1") (fun _ => rfl)⟩

/-- C2 (counterexample): `cache_player_average` accepts the value 0
(`0 <= v <= 1`), but validating an all-null column immediately afterwards
yields the league average, not the cached 0: the tier-1 fill of 0 is
re-masked as invalid and overwritten by tier 3. -/
theorem c2_counterexample :
    (cache_player_average emptyValidator 0 "p1" (some 0)).cache "p1"
        = some (CacheEntry.prev 0 0)
    ∧ (validate_batting_averages (cache_player_average emptyValidator 0 "p1" (some 0)) 0
          ⟨2, [("batting_avg", [none, none])], []⟩ (some "p1") fetchNone).1.cols
        = [("batting_avg", [some leagueAverage, some leagueAverage])]
    ∧ leagueAverage ≠ 0 :=
  ⟨rfl, rfl, by norm_num [leagueAverage]⟩

/-- C2 (amended): for a value v with `0 < v <= 1` (rather than `0 <= v <= 1`)
accepted by `cache_player_average`, immediately validating a table whose
average column is entirely null, for the same id, with the entry not stale
and no season data, yields v in every row: tier 1 pre-empts tiers 2 and 3.
(For v = 0 the code instead yields the league average.) -/
theorem c2_amended_cached_value_used :
    ∀ (q : ℚ) (pid : String) (now dur : ℤ) (cname : String) (col : List Val) (fetch : Fetch),
      pid ≠ "" → 0 < q → q ≤ 1 → 0 < dur → col ≠ [] →
      (∀ x ∈ col, x = none) → avgLike cname = true →
      (∀ p2, fetch p2 = Except.ok none) →
      (validate_batting_averages (cache_player_average ⟨fun _ => none, dur⟩ now pid (some q))
          now ⟨col.length, [(cname, col)], []⟩ (some pid) fetch).1.cols
        = [(cname, col.map (fun _ => some q))] := by
  intro q pid now dur cname col fetch hpid hq0 hq1 hdur hcol hnull havg hfetch
  have hacc : cache_player_average ⟨fun _ => none, dur⟩ now pid (some q)
      = ⟨setCache (fun _ => none) pid (CacheEntry.prev q now), dur⟩ := by
    simp [cache_player_average, hpid, le_of_lt hq0, hq1]
  rw [hacc]
  -- the cascade on the all-null column fills every cell with q at tier 1
  have hany : col.any isInvalid = true := by
    obtain ⟨x, hx⟩ := List.exists_mem_of_ne_nil col hcol
    exact List.any_eq_true.mpr ⟨x, hx, by rw [hnull x hx]; rfl⟩
  have hfillq : fillMask q col = col.map (fun _ => some q) := by
    unfold fillMask
    apply List.map_congr_left
    intro x hx
    rw [hnull x hx]
    rfl
  have hqvalid : isInvalid (some q) = false := by
    simp [isInvalid, ne_of_gt hq0, not_lt.mpr (le_of_lt hq0), not_lt.mpr hq1]
  have ht1 : _apply_previous_game_fallback
      ⟨setCache (fun _ => none) pid (CacheEntry.prev q now), dur⟩ now col (some pid)
      = fillMask q col := by
    simp [_apply_previous_game_fallback, hpid, setCache, is_cache_valid, sub_self, hdur]
  have hsc : (⟨setCache (fun _ => none) pid (CacheEntry.prev q now), dur⟩ :
      Validator).cache ("season_avg_" ++ pid) = none := by
    simp [setCache, season_key_ne pid]
  have ht2 : _apply_season_average_fallback
      ⟨setCache (fun _ => none) pid (CacheEntry.prev q now), dur⟩ now
      (fillMask q col) (some pid) fetch
      = (fillMask q col, ⟨setCache (fun _ => none) pid (CacheEntry.prev q now), dur⟩) := by
    refine season_noop_of_get_none _ _ _ _ _ ?_
    intro p2 hp2 _
    obtain rfl : pid = p2 := by simpa using hp2
    exact get_season_no_data _ _ _ _ hsc (Or.inr (hfetch _))
  have hnoinv : (fillMask q col).any isInvalid = false := by
    apply List.any_eq_false.mpr
    intro x hx
    rw [hfillq] at hx
    obtain ⟨y, -, rfl⟩ := List.mem_map.mp hx
    simp [hqvalid]
  have ht3 : _apply_final_fallback (fillMask q col) = fillMask q col := by
    unfold _apply_final_fallback
    rw [hnoinv]
    simp
  have hcascade : (_apply_batting_average_fallback
      ⟨setCache (fun _ => none) pid (CacheEntry.prev q now), dur⟩ now col (some pid) fetch).1
      = col.map (fun _ => some q) := by
    rw [fallback_fst_eq _ _ _ _ _ hany, ht1, ht2, ht3, hfillq]
  have hl : lookupCol [(cname, col)] cname = some col := by
    simp [lookupCol]
  simp [validate_batting_averages, applyToCols, hl, hcascade, setColAll,
    List.length_eq_zero, hcol, havg]

/-- C2 witness: a cached value of 1 fills a concrete two-row null column. -/
theorem c2_amended_cached_value_used_witness :
    ("p1" : String) ≠ "" ∧ (0 : ℚ) < 1 ∧ (1 : ℚ) ≤ 1
    ∧ (validate_batting_averages (cache_player_average ⟨fun _ => none, 24⟩ 0 "p1" (some 1)) 0
          ⟨2, [("batting_avg", [none, none])], []⟩ (some "p1") fetchNone).1.cols
        = [("batting_avg", [some 1, some 1])] :=
  ⟨by decide, by decide, by decide,
    c2_amended_cached_value_used 1 "p1" 0 24 "batting_avg" [none, none] fetchNone
      (by decide) (by decide) (by decide) (by decide) (by decide) (by decide)
      (by decide) (fun _ => rfl)⟩

/-- Membership in a column overwrite: each entry comes from an input entry,
renewed when its name matches. -/
theorem mem_setColAll {cols : List (String × List Val)} {n : String} {s : List Val}
    {pr : String × List Val} (h : pr ∈ setColAll cols n s) :
    ∃ pr0 ∈ cols, pr = if pr0.1 = n then (pr0.1, s) else pr0 := by
  simp only [setColAll, List.mem_map] at h
  obtain ⟨pr0, hpr0, heq⟩ := h
  exact ⟨pr0, hpr0, heq.symm⟩

/-- Membership in `setOrAdd`: either the written column or an original
entry. -/
theorem mem_setOrAdd {cols : List (String × List Val)} {n : String} {s : List Val}
    {pr : String × List Val} (h : pr ∈ setOrAdd cols n s) :
    (pr.1 = n ∧ pr.2 = s) ∨ pr ∈ cols := by
  unfold setOrAdd at h
  split at h
  · obtain ⟨pr0, hpr0, heq⟩ := mem_setColAll h
    by_cases hc : pr0.1 = n
    · rw [heq, if_pos hc]
      exact Or.inl ⟨hc, rfl⟩
    · rw [heq, if_neg hc]
      exact Or.inr hpr0
  · rcases List.mem_append.mp h with h2 | h2
    · exact Or.inr h2
    · rw [List.mem_singleton.mp h2]
      exact Or.inl ⟨rfl, rfl⟩

/-- A null lookup means no entry carries that name. -/
theorem lookup_none {cols : List (String × List Val)} {n : String}
    (h : lookupCol cols n = none) : ∀ pr ∈ cols, ¬ pr.1 = n := by
  intro pr hpr
  simp only [lookupCol, Option.map_eq_none'] at h
  have h2 := List.find?_eq_none.mp h pr hpr
  simpa using h2

/-- Looking up the overwritten name in `setColAll` finds the new data when
the name is present. -/
theorem lookup_setColAll_self {cols : List (String × List Val)} {n : String}
    {s : List Val} (h : cols.any (fun c => c.1 = n) = true) :
    lookupCol (setColAll cols n s) n = some s := by
  induction cols with
  | nil => simp at h
  | cons c rest ih =>
    simp only [List.any_cons, Bool.or_eq_true, decide_eq_true_eq] at h
    by_cases hc : c.1 = n
    · simp [setColAll, lookupCol, hc]
    · have h2 : rest.any (fun c => decide (c.1 = n)) = true := by
        rcases h with h | h
        · exact absurd h hc
        · exact h
      have ih2 := ih h2
      simp only [setColAll, lookupCol, List.map_cons, if_neg hc, List.find?_cons] at ih2 ⊢
      have hbeq : (c.1 == n) = false := by simpa using hc
      rw [hbeq]
      exact ih2

/-- Appending a fresh column and looking it up finds its data. -/
theorem lookup_append_self {cols : List (String × List Val)} {n : String}
    {s : List Val} (h : cols.any (fun c => c.1 = n) = false) :
    lookupCol (cols ++ [(n, s)]) n = some s := by
  induction cols with
  | nil => simp [lookupCol]
  | cons c rest ih =>
    simp only [List.any_cons, Bool.or_eq_false_iff, decide_eq_false_iff_not] at h
    have ih2 := ih (by simpa using h.2)
    simp only [lookupCol, List.cons_append, List.find?_cons] at ih2 ⊢
    have hbeq : (c.1 == n) = false := by simpa using h.1
    rw [hbeq]
    exact ih2

/-- Looking up the written name after `setOrAdd` always finds the data. -/
theorem lookup_setOrAdd_self (cols : List (String × List Val)) (n : String)
    (s : List Val) : lookupCol (setOrAdd cols n s) n = some s := by
  unfold setOrAdd
  split
  · exact lookup_setColAll_self (by assumption)
  · rename_i hc
    refine lookup_append_self ?_
    rw [← Bool.not_eq_true]
    exact hc

/-- The per-column loop does not touch the row count or the string
columns. -/
theorem applyToCols_frame (now : ℤ) (pid : Option String) (fetch : Fetch) :
    ∀ (names : List String) (v : Validator) (d : DataFrame),
      (applyToCols now pid fetch v d names).1.nrows = d.nrows
      ∧ (applyToCols now pid fetch v d names).1.strCols = d.strCols := by
  intro names
  induction names with
  | nil => intro v d; exact ⟨rfl, rfl⟩
  | cons n rest ih =>
    intro v d
    cases hl : lookupCol d.cols n with
    | none =>
      simp only [applyToCols, hl]
      exact ih v d
    | some series =>
      simp only [applyToCols, hl]
      exact ih _ _

/-- Every entry of the loop's output is either fully valid or an untouched
input entry whose name was not in the processed list. -/
theorem applyToCols_mem_valid (now : ℤ) (pid : Option String) (fetch : Fetch) :
    ∀ (names : List String) (v : Validator) (d : DataFrame),
      ∀ pr ∈ (applyToCols now pid fetch v d names).1.cols,
        (∀ x ∈ pr.2, isInvalid x = false) ∨ (pr.1 ∉ names ∧ pr ∈ d.cols) := by
  intro names
  induction names with
  | nil =>
    intro v d pr hpr
    exact Or.inr ⟨List.not_mem_nil _, hpr⟩
  | cons n rest ih =>
    intro v d pr hpr
    cases hl : lookupCol d.cols n with
    | none =>
      simp only [applyToCols, hl] at hpr
      rcases ih v d pr hpr with hv | ⟨hni, hin⟩
      · exact Or.inl hv
      · refine Or.inr ⟨?_, hin⟩
        simp only [List.mem_cons, not_or]
        exact ⟨lookup_none hl pr hin, hni⟩
    | some series =>
      simp only [applyToCols, hl] at hpr
      rcases ih _ _ pr hpr with hv | ⟨hni, hin⟩
      · exact Or.inl hv
      · obtain ⟨pr0, hpr0, heq⟩ := mem_setColAll hin
        by_cases hc : pr0.1 = n
        · rw [heq, if_pos hc]
          exact Or.inl (fallback_fst_valid v now series pid fetch)
        · rw [heq, if_neg hc]
          refine Or.inr ⟨?_, hpr0⟩
          simp only [List.mem_cons, not_or]
          rw [heq, if_neg hc] at hni
          exact ⟨hc, hni⟩

/-- Every entry of the loop's output is either one of the processed names
or an untouched input entry. -/
theorem applyToCols_mem_names (now : ℤ) (pid : Option String) (fetch : Fetch) :
    ∀ (names : List String) (v : Validator) (d : DataFrame),
      ∀ pr ∈ (applyToCols now pid fetch v d names).1.cols,
        pr.1 ∈ names ∨ pr ∈ d.cols := by
  intro names
  induction names with
  | nil =>
    intro v d pr hpr
    exact Or.inr hpr
  | cons n rest ih =>
    intro v d pr hpr
    cases hl : lookupCol d.cols n with
    | none =>
      simp only [applyToCols, hl] at hpr
      rcases ih v d pr hpr with h | h
      · exact Or.inl (List.mem_cons_of_mem _ h)
      · exact Or.inr h
    | some series =>
      simp only [applyToCols, hl] at hpr
      rcases ih _ _ pr hpr with h | h
      · exact Or.inl (List.mem_cons_of_mem _ h)
      · obtain ⟨pr0, hpr0, heq⟩ := mem_setColAll h
        by_cases hc : pr0.1 = n
        · rw [heq, if_pos hc]
          exact Or.inl (by simp [hc])
        · rw [heq, if_neg hc]
          exact Or.inr hpr0

/-- `_calculate_batting_average` only writes the `calculated_avg` column. -/
theorem calc_avg_shape (data : DataFrame) :
    ∃ s, (_calculate_batting_average data).cols = setOrAdd data.cols "calculated_avg" s
      ∧ (_calculate_batting_average data).nrows = data.nrows
      ∧ (_calculate_batting_average data).strCols = data.strCols := by
  unfold _calculate_batting_average
  split
  · exact ⟨_, rfl, rfl, rfl⟩
  · split
    · exact ⟨_, rfl, rfl, rfl⟩
    · exact ⟨_, rfl, rfl, rfl⟩

/-- The derived column's name is itself average-like. -/
theorem avgLike_calculated : avgLike "calculated_avg" = true := by decide

/-- C1: after `validate_batting_averages`, every average-like column of the
result (including a derived `calculated_avg` column) contains no null and
only values in `[0,1]`: tier 3 fully resolves the invalid mask. -/
theorem c1_validated_columns_in_range :
    ∀ (v : Validator) (now : ℤ) (data : DataFrame) (pid : Option String) (fetch : Fetch),
      ∀ pr ∈ (validate_batting_averages v now data pid fetch).1.cols,
        avgLike pr.1 = true →
        ∀ x ∈ pr.2, ∃ q, x = some q ∧ 0 ≤ q ∧ q ≤ 1 := by
  intro v now data pid fetch pr hpr havg x hx
  suffices h : isInvalid x = false from valid_of_isInvalid_false h
  simp only [validate_batting_averages] at hpr
  by_cases he : data.nrows = 0 ∨ (data.cols = [] ∧ data.strCols = [])
  · rw [if_pos he] at hpr
    simp at hpr
  · rw [if_neg he] at hpr
    by_cases ha : (data.cols.map Prod.fst).filter (fun n => avgLike n) = []
    · rw [if_pos ha] at hpr
      rcases applyToCols_mem_valid now pid fetch ["calculated_avg"] v
          (_calculate_batting_average data) pr hpr with hvalid | ⟨hni, hin⟩
      · exact hvalid x hx
      · obtain ⟨s, hcols, -, -⟩ := calc_avg_shape data
        rw [hcols] at hin
        rcases mem_setOrAdd hin with ⟨h1, -⟩ | hin2
        · exact absurd (by simp [h1]) hni
        · exfalso
          have hmem : pr.1 ∈ (data.cols.map Prod.fst).filter (fun n => avgLike n) :=
            List.mem_filter.mpr ⟨List.mem_map_of_mem _ hin2, havg⟩
          rw [ha] at hmem
          simp at hmem
    · rw [if_neg ha] at hpr
      rcases applyToCols_mem_valid now pid fetch _ v data pr hpr with hvalid | ⟨hni, hin⟩
      · exact hvalid x hx
      · exact absurd (List.mem_filter.mpr ⟨List.mem_map_of_mem _ hin, havg⟩) hni

/-- C1 witness: a one-row table whose `avg` column holds 2 comes back with
the league average, a valid value. -/
theorem c1_validated_columns_in_range_witness :
    (("avg", [some leagueAverage])
        ∈ (validate_batting_averages emptyValidator 0 ⟨1, [("avg", [some 2])], []⟩
            none fetchNone).1.cols)
    ∧ avgLike "avg" = true
    ∧ ∃ q, (some leagueAverage : Val) = some q ∧ 0 ≤ q ∧ q ≤ 1 := by
  have hres : (validate_batting_averages emptyValidator 0 ⟨1, [("avg", [some 2])], []⟩
      none fetchNone).1.cols = [("avg", [some leagueAverage])] := rfl
  have hmem : ("avg", [some leagueAverage])
      ∈ (validate_batting_averages emptyValidator 0 ⟨1, [("avg", [some 2])], []⟩
          none fetchNone).1.cols := by
    rw [hres]
    exact List.mem_singleton.mpr rfl
  exact ⟨hmem, by decide,
    c1_validated_columns_in_range emptyValidator 0 ⟨1, [("avg", [some 2])], []⟩
      none fetchNone ("avg", [some leagueAverage]) hmem (by decide)
      (some leagueAverage) (List.mem_singleton.mpr rfl)⟩

/-- C9 (counterexample): a table with 3 index rows and no columns is
`empty` for pandas, so `validate_batting_averages` returns an empty
DataFrame: the row count 3 is not preserved. -/
theorem c9_counterexample :
    (validate_batting_averages emptyValidator 0 ⟨3, [], []⟩ none fetchNone).1.nrows = 0
    ∧ (⟨3, [], []⟩ : DataFrame).nrows = 3 ∧ (3 : ℕ) ≠ 0 :=
  ⟨rfl, rfl, by decide⟩

/-- C9 (amended): for every input table with at least one column,
`validate_batting_averages` preserves the row count, every non-average-like
column of the result is an unchanged input column, and every string column
of the result is an unchanged input string column. (A column-free table
with a nonzero row count instead returns the empty table.) -/
theorem c9_amended_frame :
    ∀ (v : Validator) (now : ℤ) (data : DataFrame) (pid : Option String) (fetch : Fetch),
      (data.cols ≠ [] ∨ data.strCols ≠ []) →
      (validate_batting_averages v now data pid fetch).1.nrows = data.nrows
      ∧ (∀ pr ∈ (validate_batting_averages v now data pid fetch).1.cols,
          avgLike pr.1 = false → pr ∈ data.cols)
      ∧ (∀ ps ∈ (validate_batting_averages v now data pid fetch).1.strCols,
          ps ∈ data.strCols) := by
  intro v now data pid fetch hne
  simp only [validate_batting_averages]
  by_cases he : data.nrows = 0 ∨ (data.cols = [] ∧ data.strCols = [])
  · have h0 : data.nrows = 0 := by
      rcases he with h | ⟨h1, h2⟩
      · exact h
      · rcases hne with h3 | h3 <;> [exact absurd h1 h3; exact absurd h2 h3]
    rw [if_pos he]
    exact ⟨h0.symm, by simp, by simp⟩
  · rw [if_neg he]
    by_cases ha : (data.cols.map Prod.fst).filter (fun n => avgLike n) = []
    · rw [if_pos ha]
      obtain ⟨s, hcols, hnr, hstr⟩ := calc_avg_shape data
      have hframe := applyToCols_frame now pid fetch ["calculated_avg"] v
        (_calculate_batting_average data)
      refine ⟨by rw [hframe.1, hnr], ?_, ?_⟩
      · intro pr hpr hpravg
        rcases applyToCols_mem_names now pid fetch ["calculated_avg"] v
            (_calculate_batting_average data) pr hpr with hin | hin
        · exfalso
          have h1 : pr.1 = "calculated_avg" := by simpa using hin
          rw [h1, avgLike_calculated] at hpravg
          exact absurd hpravg (by simp)
        · rw [hcols] at hin
          rcases mem_setOrAdd hin with ⟨h1, -⟩ | hin2
          · exfalso
            rw [h1, avgLike_calculated] at hpravg
            exact absurd hpravg (by simp)
          · exact hin2
      · intro ps hps
        rw [hframe.2, hstr] at hps
        exact hps
    · rw [if_neg ha]
      have hframe := applyToCols_frame now pid fetch
        ((data.cols.map Prod.fst).filter (fun n => avgLike n)) v data
      refine ⟨hframe.1, ?_, ?_⟩
      · intro pr hpr hpravg
        rcases applyToCols_mem_names now pid fetch
            ((data.cols.map Prod.fst).filter (fun n => avgLike n)) v data pr hpr with hin | hin
        · exfalso
          have h1 : avgLike pr.1 = true := (List.mem_filter.mp hin).2
          rw [hpravg] at h1
          exact absurd h1 (by simp)
        · exact hin
      · intro ps hps
        rw [hframe.2] at hps
        exact hps

/-- C9 witness: on a concrete two-column table, the row count is preserved
and the non-average `hits` column passes through unchanged. -/
theorem c9_amended_frame_witness :
    ((⟨1, [("team_avg", [some 2]), ("hits", [some 3])], []⟩ : DataFrame).cols ≠ []
      ∨ (⟨1, [("team_avg", [some 2]), ("hits", [some 3])], []⟩ : DataFrame).strCols ≠ [])
    ∧ (validate_batting_averages emptyValidator 0
        ⟨1, [("team_avg", [some 2]), ("hits", [some 3])], []⟩ none fetchNone).1.nrows = 1
    ∧ ("hits", [some (3 : ℚ)])
        ∈ (⟨1, [("team_avg", [some 2]), ("hits", [some 3])], []⟩ : DataFrame).cols := by
  have hres : (validate_batting_averages emptyValidator 0
      ⟨1, [("team_avg", [some 2]), ("hits", [some 3])], []⟩ none fetchNone).1.cols
      = [("team_avg", [some leagueAverage]), ("hits", [some 3])] := rfl
  refine ⟨Or.inl (by decide), ?_, ?_⟩
  · exact (c9_amended_frame emptyValidator 0
      ⟨1, [("team_avg", [some 2]), ("hits", [some 3])], []⟩ none fetchNone
      (Or.inl (by decide))).1
  · refine (c9_amended_frame emptyValidator 0
      ⟨1, [("team_avg", [some 2]), ("hits", [some 3])], []⟩ none fetchNone
      (Or.inl (by decide))).2.1 ("hits", [some 3]) ?_ (by decide)
    rw [hres]
    exact List.mem_cons_of_mem _ (List.mem_singleton.mpr rfl)

/-- The fill-after-guarded-division pipeline is, row by row, hits/at_bats
for nonzero at-bats and the league average for zero or null entries. -/
theorem guarded_division_rows (hs abs : List Val) :
    (List.zipWith (fun h ab =>
        match h, ab with
        | some hv, some abv => some (hv / abv)
        | _, _ => (none : Val)) hs (abs.map (fun x => if x = some 0 then none else x))).map
      (fun x => some (x.getD leagueAverage))
    = List.zipWith (fun h ab =>
        some (match h, ab with
          | some hv, some abv => if abv = 0 then leagueAverage else hv / abv
          | _, _ => leagueAverage)) hs abs := by
  induction hs generalizing abs with
  | nil => simp
  | cons h t ih =>
    cases abs with
    | nil => simp
    | cons ab tabs =>
      simp only [List.map_cons, List.zipWith_cons_cons, ih]
      congr 1
      cases h with
      | none => rfl
      | some hv =>
        cases ab with
        | none => rfl
        | some abv =>
          by_cases habv : abv = 0
          · simp [habv]
          · simp [habv]

/-- C6: when `hits` and `at_bats` columns exist, the derived
`calculated_avg` column equals, row by row, hits/at_bats for nonzero
at-bats and the league average 0.244 for zero at-bats — never null. -/
theorem c6_derived_average :
    ∀ (data : DataFrame) (hits at_bats : List Val),
      lookupCol data.cols "hits" = some hits →
      lookupCol data.cols "at_bats" = some at_bats →
      lookupCol (_calculate_batting_average data).cols "calculated_avg"
        = some (List.zipWith (fun h ab =>
            some (match h, ab with
              | some hv, some abv => if abv = 0 then leagueAverage else hv / abv
              | _, _ => leagueAverage)) hits at_bats) := by
  intro data hits at_bats h1 h2
  simp only [_calculate_batting_average, h1, h2]
  rw [lookup_setOrAdd_self, guarded_division_rows]

/-- C6 witness: the pairs (85,300), (92,320), (78,295) derive 85/300,
92/320, 78/295. -/
theorem c6_derived_average_witness :
    lookupCol ([("hits", [some 85, some 92, some 78]),
        ("at_bats", [some 300, some 320, some 295])] : List (String × List Val)) "hits"
      = some [some 85, some 92, some 78]
    ∧ lookupCol (_calculate_batting_average
        ⟨3, [("hits", [some 85, some 92, some 78]),
            ("at_bats", [some 300, some 320, some 295])], []⟩).cols "calculated_avg"
      = some [some (85 / 300), some (92 / 320), some (78 / 295)] := by
  refine ⟨rfl, ?_⟩
  have h := c6_derived_average
    ⟨3, [("hits", [some 85, some 92, some 78]),
        ("at_bats", [some 300, some 320, some 295])], []⟩
    [some 85, some 92, some 78] [some 300, some 320, some 295] rfl rfl
  rw [h]
  rfl

end DataValidator
